import Mathlib

/-!
# Verification of the sekou-ai risk-classification and model-lifecycle core

Shallow embedding of the decision logic of `backend/model_utils.py`,
`backend/main.py` and the model-artifact state of `backend/database.py`:
the rule engine, the feature assembler, the candidate registry, the
trainer/selector loop, the artifact codec call sites, and the
inference orchestrator of the `/predict` route.

Python floats that only ever hold decimal literals and are compared with
`>=` are embedded as rationals; SQLAlchemy rows become Lean structures and
the database a list of rows; Python dicts become association lists with
explicit right-overwrite merge; pandas DataFrames become lists of named
columns in which duplicate names are representable (pandas keeps them).
-/

namespace SekouAI

/-- The `RiskLevel` literal type of `backend/schemas.py`:
`Literal["low", "medium", "high"]`. -/
inductive RiskLevel where
  | low
  | medium
  | high
  deriving DecidableEq, Repr

/-- Scalar JSON-ish values carried in `features` dicts and table cells;
`vNone` doubles as the pandas missing marker (NaN). -/
inductive Val where
  | vStr (s : String)
  | vNum (q : ℚ)
  | vBool (b : Bool)
  | vNone
  deriving DecidableEq, Repr

/-- `PredictionInput` of `backend/schemas.py`: `amount: float (ge=0)`,
`category: str (min_length=1)`, `features: Dict[str, Any] | None`. -/
structure PredictionInput where
  amount : ℚ
  category : String
  features : Option (List (String × Val)) := none
  deriving DecidableEq

/-- `simple_risk_model` of `backend/model_utils.py`:
`amount >= 10000 -> "high"`, `amount >= 1000 -> "medium"`, else `"low"`. -/
def simple_risk_model (payload : PredictionInput) : RiskLevel :=
  if payload.amount ≥ 10000 then .high
  else if payload.amount ≥ 1000 then .medium
  else .low

/-- `TriageInput` of `backend/schemas.py`: `name` optional, `age` in `[0,120]`,
`sex` in male/female/other, three symptom booleans, optional `antecedents`. -/
structure TriageInput where
  name : Option String := none
  age : ℕ
  sex : String
  fever : Bool
  cough : Bool
  shortness_of_breath : Bool
  antecedents : Option String := none
  deriving DecidableEq, Repr

/-- `triage_risk_model` of `backend/model_utils.py`: ordered decision list,
first match wins. -/
def triage_risk_model (payload : TriageInput) : RiskLevel :=
  if payload.shortness_of_breath then .high
  else if payload.age ≥ 75 ∧ payload.fever then .high
  else if payload.age ≥ 65 ∨ (payload.fever ∧ payload.cough) then .medium
  else .low

/-- Outcome of the model-backed path of `/predict` in `backend/main.py`:
loading the active artifact (`load_model_from_bytes`, a `joblib.load` call)
may raise, `model.predict` may raise, and otherwise `str(pred)` yields some
string label. -/
inductive ModelPathOutcome where
  | loadFailure
  | predictFailure
  | predicted (label : String)
  deriving DecidableEq, Repr

/-- The label check of `backend/main.py`:
`if risk not in {"low", "medium", "high"}` — a predicted string is accepted
only when it is exactly one of the three literals. -/
def parseRisk (s : String) : Option RiskLevel :=
  if s = "low" then some .low
  else if s = "medium" then some .medium
  else if s = "high" then some .high
  else none

/-- The `try` body of `predict` in `backend/main.py` once an active model row
was found: any raised exception and any out-of-vocabulary label fall back to
`simple_risk_model(payload)`. -/
def inferWithModel (payload : PredictionInput) (m : ModelPathOutcome) : RiskLevel :=
  match m with
  | .loadFailure => simple_risk_model payload
  | .predictFailure => simple_risk_model payload
  | .predicted s =>
      match parseRisk s with
      | some r => r
      | none => simple_risk_model payload

/-- The `/predict` risk computation of `backend/main.py`: if no active
artifact row exists the rule engine answers directly, otherwise the model
path runs under the fallback of `inferWithModel`. -/
def infer (payload : PredictionInput) (activeModel : Option ModelPathOutcome) :
    RiskLevel :=
  match activeModel with
  | none => simple_risk_model payload
  | some m => inferWithModel payload m

end SekouAI

namespace SekouAI

/-- C2: For every TransactionInput with non-negative amount,
`simple_risk_model` returns high iff amount ≥ 10000, medium iff
1000 ≤ amount < 10000, and low iff amount < 1000; the three tiers
partition the input space with no overlap, amount = 1000 yields medium
and amount = 10000 yields high. -/
theorem simple_risk_model_tiers (p : PredictionInput) (h : 0 ≤ p.amount) :
    (simple_risk_model p = .low ↔ p.amount < 1000) ∧
    (simple_risk_model p = .medium ↔ 1000 ≤ p.amount ∧ p.amount < 10000) ∧
    (simple_risk_model p = .high ↔ 10000 ≤ p.amount) := by
  unfold simple_risk_model
  split_ifs with h1 h2
  · exact ⟨⟨fun hc => hc.elim, fun hc => (by linarith : False).elim⟩,
      ⟨fun hc => hc.elim, fun hc => (by linarith [hc.2] : False).elim⟩,
      ⟨fun _ => h1, fun _ => rfl⟩⟩
  · exact ⟨⟨fun hc => hc.elim, fun hc => (by linarith : False).elim⟩,
      ⟨fun _ => ⟨h2, by linarith [not_le.mp h1]⟩, fun _ => rfl⟩,
      ⟨fun hc => hc.elim, fun hc => absurd hc h1⟩⟩
  · exact ⟨⟨fun _ => by linarith [not_le.mp h2], fun _ => rfl⟩,
      ⟨fun hc => hc.elim, fun hc => absurd hc.1 h2⟩,
      ⟨fun hc => hc.elim, fun hc => absurd hc h1⟩⟩

/-- Witness for C2 at the boundary amount = 1000 (yields medium). -/
theorem simple_risk_model_tiers_witness :
    (0 : ℚ) ≤ (1000 : ℚ) ∧
      (simple_risk_model ⟨1000, "general", none⟩ = .medium ↔
        (1000 : ℚ) ≤ 1000 ∧ (1000 : ℚ) < 10000) :=
  ⟨by norm_num, (simple_risk_model_tiers ⟨1000, "general", none⟩ (by norm_num)).2.1⟩

/-- C3: `triage_risk_model` is an ordered first-match-wins decision list:
shortness of breath yields high; else age ≥ 75 with fever yields high; else
age ≥ 65 or fever-and-cough yields medium; else low. In particular
age 80 with fever and no shortness of breath yields high, not medium. -/
theorem triage_risk_model_decision_list (t : TriageInput) (h : t.age ≤ 120) :
    (t.shortness_of_breath = true → triage_risk_model t = .high) ∧
    (t.shortness_of_breath = false → 75 ≤ t.age → t.fever = true →
      triage_risk_model t = .high) ∧
    (t.shortness_of_breath = false → ¬(75 ≤ t.age ∧ t.fever = true) →
      (65 ≤ t.age ∨ (t.fever = true ∧ t.cough = true)) →
      triage_risk_model t = .medium) ∧
    (t.shortness_of_breath = false → ¬(75 ≤ t.age ∧ t.fever = true) →
      ¬(65 ≤ t.age ∨ (t.fever = true ∧ t.cough = true)) →
      triage_risk_model t = .low) ∧
    (t.age = 80 → t.fever = true → t.shortness_of_breath = false →
      triage_risk_model t = .high) := by
  unfold triage_risk_model
  refine ⟨fun hs => ?_, fun hs h75 hf => ?_, fun hs hn h65 => ?_,
    fun hs hn hn65 => ?_, fun ha hf hs => ?_⟩
  · simp [hs]
  · simp only [hs, if_false, Bool.false_eq_true]
    rw [if_pos ⟨h75, hf⟩]
  · simp only [hs, if_false, Bool.false_eq_true]
    rw [if_neg hn, if_pos h65]
  · simp only [hs, if_false, Bool.false_eq_true]
    rw [if_neg hn, if_neg hn65]
  · simp only [hs, if_false, Bool.false_eq_true]
    rw [if_pos ⟨by omega, hf⟩]

/-- Witness for C3 at age 80, fever, no shortness of breath, no cough. -/
theorem triage_risk_model_decision_list_witness :
    triage_risk_model ⟨none, 80, "female", true, false, false, none⟩ = .high :=
  (triage_risk_model_decision_list ⟨none, 80, "female", true, false, false, none⟩
    (by norm_num)).2.2.2.2 rfl rfl rfl

/-- C1: The `/predict` inference operation always returns one of the three
risk levels and never fails: with no active artifact it returns
`simple_risk_model payload` directly, and on any failure of the model path —
the artifact bytes fail to deserialize, prediction raises, or the predicted
label string is not exactly low/medium/high — the result equals
`simple_risk_model payload`. -/
theorem infer_total_with_rule_fallback (payload : PredictionInput)
    (activeModel : Option ModelPathOutcome) :
    (infer payload none = simple_risk_model payload) ∧
    (infer payload (some .loadFailure) = simple_risk_model payload) ∧
    (infer payload (some .predictFailure) = simple_risk_model payload) ∧
    (∀ s : String, s ≠ "low" → s ≠ "medium" → s ≠ "high" →
      infer payload (some (.predicted s)) = simple_risk_model payload) ∧
    (infer payload activeModel = .low ∨ infer payload activeModel = .medium ∨
      infer payload activeModel = .high) := by
  refine ⟨rfl, rfl, rfl, fun s h1 h2 h3 => ?_, ?_⟩
  · simp [infer, inferWithModel, parseRisk, h1, h2, h3]
  · cases h : infer payload activeModel
    · exact Or.inl rfl
    · exact Or.inr (Or.inl rfl)
    · exact Or.inr (Or.inr rfl)

/-- Witness for C1: an out-of-vocabulary predicted label falls back to the
rule engine at a concrete input. -/
theorem infer_total_with_rule_fallback_witness :
    infer ⟨500, "general", none⟩ (some (.predicted "banana")) =
      simple_risk_model ⟨500, "general", none⟩ :=
  (infer_total_with_rule_fallback ⟨500, "general", none⟩
    (some (.predicted "banana"))).2.2.2.1 "banana" (by decide) (by decide) (by decide)

end SekouAI

namespace SekouAI

/-- A candidate of the model registry of `backend/model_utils.py`: a learner
name and its hyperparameter search space (`None` / `-1` sentinels of the
Python grids become `Option` / negative values). -/
structure Candidate where
  name : String
  searchSpace : List (String × List (Option ℚ))
  deriving DecidableEq, Repr

/-- `_grid_rf` of `backend/model_utils.py`: the RandomForest baseline, built
unconditionally (scikit-learn is a hard dependency of the training path). -/
def _grid_rf : Candidate :=
  ⟨"RandomForest",
    [("clf__n_estimators", [some 100, some 300]),
     ("clf__max_depth", [none, some 10, some 20])]⟩

/-- `_grid_xgb` of `backend/model_utils.py`: returns no candidate when the
`xgboost` import fails (the `except` branch returns `(None, {})`). -/
def _grid_xgb (xgboostAvailable : Bool) : Option Candidate :=
  if xgboostAvailable then
    some ⟨"XGBoost",
      [("clf__n_estimators", [some 200, some 400]),
       ("clf__max_depth", [some 3, some 6]),
       ("clf__learning_rate", [some (5/100), some (1/10)])]⟩
  else none

/-- `_grid_lgbm` of `backend/model_utils.py`: returns no candidate when the
`lightgbm` import fails. -/
def _grid_lgbm (lightgbmAvailable : Bool) : Option Candidate :=
  if lightgbmAvailable then
    some ⟨"LightGBM",
      [("clf__n_estimators", [some 200, some 400]),
       ("clf__max_depth", [some (-1), some 10, some 20]),
       ("clf__learning_rate", [some (5/100), some (1/10)])]⟩
  else none

/-- The `grids` list built inside `train_select_serialize` of
`backend/model_utils.py`: RandomForest is appended unconditionally, then
XGBoost and LightGBM are each appended only if their grid is not `None`. -/
def buildGrids (xgboostAvailable lightgbmAvailable : Bool) : List Candidate :=
  let grids : List Candidate := [_grid_rf]
  let grids :=
    match _grid_xgb xgboostAvailable with
    | some c => grids ++ [c]
    | none => grids
  match _grid_lgbm lightgbmAvailable with
  | some c => grids ++ [c]
  | none => grids

/-- C9: The RandomForest baseline is always the first evaluated candidate,
whatever optional learner packages are importable, so the candidate list is
never empty; an unavailable XGBoost or LightGBM import drops exactly that
candidate and training proceeds with the remaining ones. -/
theorem buildGrids_baseline_always_present
    (xgboostAvailable lightgbmAvailable : Bool) :
    (buildGrids xgboostAvailable lightgbmAvailable).head? = some _grid_rf ∧
    _grid_rf ∈ buildGrids xgboostAvailable lightgbmAvailable ∧
    1 ≤ (buildGrids xgboostAvailable lightgbmAvailable).length ∧
    (buildGrids xgboostAvailable lightgbmAvailable).map Candidate.name =
      ["RandomForest"] ++ (if xgboostAvailable then ["XGBoost"] else []) ++
        (if lightgbmAvailable then ["LightGBM"] else []) := by
  cases xgboostAvailable <;> cases lightgbmAvailable <;>
    refine ⟨rfl, ?_, by decide, rfl⟩ <;> simp [buildGrids, _grid_xgb, _grid_lgbm]

end SekouAI

namespace SekouAI

/-- The per-candidate result of `gs.fit` in `train_select_serialize` of
`backend/model_utils.py`: the candidate name, `gs.best_score_`,
`gs.best_params_` (one chosen value per hyperparameter) and
`gs.best_estimator_` (an opaque handle for the fitted pipeline). -/
structure EvalResult where
  name : String
  score : ℚ
  params : List (String × Option ℚ)
  estimator : ℕ
  deriving DecidableEq, Repr

/-- The running-best accumulator of the selection loop of
`train_select_serialize`: `best_score` starts at `-np.inf`, embedded as
`⊥ : WithBot ℚ`, and `best_estimator` starts at `None`. -/
structure SelState where
  best_name : String
  best_score : WithBot ℚ
  best_params : List (String × Option ℚ)
  best_estimator : Option ℕ
  deriving DecidableEq

/-- `best_name = ""`, `best_score = -np.inf`, `best_params = {}`,
`best_estimator = None`. -/
def initSelState : SelState := ⟨"", ⊥, [], none⟩

/-- One iteration of the selection loop:
`if gs.best_score_ > best_score:` take this candidate, else keep the
running best. -/
def selStep (s : SelState) (r : EvalResult) : SelState :=
  if s.best_score < (r.score : WithBot ℚ) then
    ⟨r.name, (r.score : WithBot ℚ), r.params, some r.estimator⟩
  else s

/-- The `for name, gs in grids:` selection loop of `train_select_serialize`,
run over the already-evaluated candidates in registration order. -/
def selectCandidates (grids : List EvalResult) : SelState :=
  grids.foldl selStep initSelState

/-- The tail of `train_select_serialize`: after the loop,
`if best_estimator is None: raise RuntimeError(...)`, else return the
selected tuple. -/
def trainSelect (grids : List EvalResult) : Except String SelState :=
  match (selectCandidates grids).best_estimator with
  | none => .error "No estimator was trained successfully"
  | some _ => .ok (selectCandidates grids)

/-- If every remaining score stays strictly below a bound that the running
best is already below, the loop never reaches that bound. -/
theorem selectCandidates_foldl_lt_bound (grids : List EvalResult)
    (s : SelState) (c : WithBot ℚ) (hs : s.best_score < c)
    (hall : ∀ p ∈ grids, (p.score : WithBot ℚ) < c) :
    (grids.foldl selStep s).best_score < c := by
  induction grids generalizing s with
  | nil => exact hs
  | cons p ps ih =>
      refine ih (selStep s p) ?_ (fun q hq => hall q (List.mem_cons_of_mem p hq))
      unfold selStep
      split_ifs with hlt
      · exact hall p (List.mem_cons_self p ps)
      · exact hs

/-- If no remaining score strictly exceeds the running best, the loop keeps
the running best unchanged. -/
theorem selectCandidates_foldl_no_update (grids : List EvalResult)
    (s : SelState) (hall : ∀ p ∈ grids, ¬ s.best_score < (p.score : WithBot ℚ)) :
    grids.foldl selStep s = s := by
  induction grids with
  | nil => rfl
  | cons p ps ih =>
      have hstep : selStep s p = s := by
        unfold selStep
        exact if_neg (hall p (List.mem_cons_self p ps))
      rw [List.foldl_cons, hstep]
      exact ih (fun q hq => hall q (List.mem_cons_of_mem p hq))

/-- C4: The selection loop returns the tuple of the candidate with the
strictly highest cross-validated best score; an exact tie keeps the earlier
candidate in registration order, because the comparison is a strict
greater-than against the running best: whenever every earlier candidate
scores strictly less than `r` and every later candidate scores at most `r`,
the returned tuple is exactly `r`'s. -/
theorem trainSelect_picks_first_strict_max (pre post : List EvalResult)
    (r : EvalResult) (hpre : ∀ p ∈ pre, p.score < r.score)
    (hpost : ∀ q ∈ post, q.score ≤ r.score) :
    trainSelect (pre ++ r :: post) =
      .ok ⟨r.name, (r.score : WithBot ℚ), r.params, some r.estimator⟩ := by
  have hfold : selectCandidates (pre ++ r :: post) =
      post.foldl selStep (selStep (pre.foldl selStep initSelState) r) := by
    unfold selectCandidates
    rw [List.foldl_append, List.foldl_cons]
  have hpre' : (pre.foldl selStep initSelState).best_score < (r.score : WithBot ℚ) :=
    selectCandidates_foldl_lt_bound pre initSelState _
      (WithBot.bot_lt_coe r.score)
      (fun p hp => WithBot.coe_lt_coe.mpr (hpre p hp))
  have hstep : selStep (pre.foldl selStep initSelState) r =
      ⟨r.name, (r.score : WithBot ℚ), r.params, some r.estimator⟩ := by
    unfold selStep
    exact if_pos hpre'
  have hpost' : post.foldl selStep
      (⟨r.name, (r.score : WithBot ℚ), r.params, some r.estimator⟩ : SelState) =
      ⟨r.name, (r.score : WithBot ℚ), r.params, some r.estimator⟩ :=
    selectCandidates_foldl_no_update post _
      (fun q hq => not_lt.mpr (WithBot.coe_le_coe.mpr (hpost q hq)))
  have hsel : selectCandidates (pre ++ r :: post) =
      ⟨r.name, (r.score : WithBot ℚ), r.params, some r.estimator⟩ := by
    rw [hfold, hstep, hpost']
  unfold trainSelect
  rw [hsel]

/-- Witness for C4: between scores 0.8 (RandomForest, registered first) and
0.9 (XGBoost), the selector returns the XGBoost tuple. -/
theorem trainSelect_picks_first_strict_max_witness :
    trainSelect [⟨"RandomForest", 8/10, [], 0⟩, ⟨"XGBoost", 9/10, [], 1⟩] =
      .ok ⟨"XGBoost", ((9/10 : ℚ) : WithBot ℚ), [], some 1⟩ :=
  trainSelect_picks_first_strict_max [⟨"RandomForest", 8/10, [], 0⟩] []
    ⟨"XGBoost", 9/10, [], 1⟩
    (by intro p hp; simp at hp; rw [hp]; norm_num)
    (by intro q hq; simp at hq)

end SekouAI

namespace SekouAI

/-- A row of the `models` table of `backend/database.py` (`ModelArtifact`):
id, candidate name, creation timestamp, the stored `metrics` JSON
(score and best params), the opaque `artifact` blob handle, and the
`active` flag. -/
structure ModelArtifact where
  id : ℕ
  name : String
  created_at : ℕ
  metrics_score : WithBot ℚ
  metrics_params : List (String × Option ℚ)
  artifact : ℕ
  active : Bool
  deriving DecidableEq

/-- The `TrainResponse` schema of `backend/schemas.py`. -/
structure TrainResponse where
  best_model_name : String
  best_score : WithBot ℚ
  best_params : List (String × Option ℚ)
  model_id : ℕ
  deriving DecidableEq

/-- The `/train` route of `backend/main.py`, given the outcome of
`train_select_serialize` (a raised exception propagates as `.error` before
any database statement runs): on success it updates every
`active == True` row to `active = False`, inserts the new artifact row with
`active=True`, and commits; the pair returned is the HTTP result and the
resulting `models` table. -/
def trainEndpoint (outcome : Except String SelState) (db : List ModelArtifact)
    (newId now : ℕ) : Except String TrainResponse × List ModelArtifact :=
  match outcome with
  | .error e => (.error e, db)
  | .ok s =>
      let deactivated := db.map fun a =>
        if a.active then { a with active := false } else a
      let newRow : ModelArtifact :=
        ⟨newId, s.best_name, now, s.best_score, s.best_params,
          s.best_estimator.getD 0, true⟩
      (.ok ⟨s.best_name, s.best_score, s.best_params, newId⟩,
        deactivated ++ [newRow])

/-- C5: When no candidate produced a fitted result, `train_select_serialize`
raises its training error, the `/train` route surfaces it to the caller, and
the stored artifact state is unchanged: no artifact is created and no active
artifact is replaced or deactivated. -/
theorem train_failure_leaves_artifacts_unchanged (grids : List EvalResult)
    (db : List ModelArtifact) (newId now : ℕ)
    (h : (selectCandidates grids).best_estimator = none) :
    trainSelect grids = .error "No estimator was trained successfully" ∧
    trainEndpoint (trainSelect grids) db newId now =
      (.error "No estimator was trained successfully", db) := by
  have herr : trainSelect grids = .error "No estimator was trained successfully" := by
    unfold trainSelect
    rw [h]
  refine ⟨herr, ?_⟩
  rw [herr]
  rfl

/-- Witness for C5: an empty candidate list (no candidate finished) errors
out and leaves a store holding one active artifact untouched. -/
theorem train_failure_leaves_artifacts_unchanged_witness :
    trainEndpoint (trainSelect []) [⟨1, "RandomForest", 5, ⊥, [], 0, true⟩] 2 7 =
      (.error "No estimator was trained successfully",
        [⟨1, "RandomForest", 5, ⊥, [], 0, true⟩]) :=
  (train_failure_leaves_artifacts_unchanged []
    [⟨1, "RandomForest", 5, ⊥, [], 0, true⟩] 2 7 rfl).2

/-- Each row of the deactivation update of `/train` ends up inactive. -/
theorem trainEndpoint_deactivated_inactive (a : ModelArtifact) :
    (if a.active then { a with active := false } else a).active = false := by
  by_cases h : a.active = true
  · rw [if_pos h]
  · rw [if_neg h]
    exact Bool.not_eq_true a.active ▸ h

/-- C6: After every successful `/train` call, the active rows of the stored
artifact table are exactly the one row inserted by this call: all previously
active artifacts are deactivated and the new artifact is the single
active one. -/
theorem train_success_single_active (s : SelState) (db : List ModelArtifact)
    (newId now : ℕ) :
    ((trainEndpoint (.ok s) db newId now).2.filter fun a => a.active) =
      [⟨newId, s.best_name, now, s.best_score, s.best_params,
        s.best_estimator.getD 0, true⟩] := by
  unfold trainEndpoint
  rw [List.filter_append]
  have hleft : ((db.map fun a =>
      if a.active then { a with active := false } else a).filter
        fun a => a.active) = [] := by
    rw [List.filter_eq_nil_iff]
    intro a ha
    rcases List.mem_map.mp ha with ⟨b, _, hb⟩
    rw [← hb, trainEndpoint_deactivated_inactive b]
    exact Bool.false_ne_true
  rw [hleft, List.nil_append]
  rfl

end SekouAI

namespace SekouAI

/-- One comparison step of the latest-active scan: keep the row with the
later `created_at`, preferring the incumbent on equal timestamps. -/
def latestStep (acc : Option ModelArtifact) (a : ModelArtifact) :
    Option ModelArtifact :=
  match acc with
  | none => some a
  | some b => if b.created_at < a.created_at then some a else some b

/-- The active-model lookup of `/predict` in `backend/main.py`:
`db.query(ModelArtifact).filter(ModelArtifact.active == True)`
`.order_by(ModelArtifact.created_at.desc()).first()`, embedded as a scan for
the maximal `created_at` among the active rows. -/
def getActiveModel (db : List ModelArtifact) : Option ModelArtifact :=
  (db.filter fun a => a.active).foldl latestStep none

/-- A step never decreases the scanned maximum and covers the new row. -/
theorem latestStep_some (acc : Option ModelArtifact) (a : ModelArtifact) :
    ∃ c, latestStep acc a = some c ∧ a.created_at ≤ c.created_at := by
  cases acc with
  | none => exact ⟨a, rfl, le_refl _⟩
  | some b =>
      simp only [latestStep]
      split_ifs with hlt
      · exact ⟨a, rfl, le_refl _⟩
      · exact ⟨b, rfl, not_lt.mp hlt⟩

/-- The scan result dominates any already-scanned incumbent. -/
theorem latest_foldl_mono (l : List ModelArtifact) (c : ModelArtifact) :
    ∃ m, l.foldl latestStep (some c) = some m ∧ c.created_at ≤ m.created_at := by
  induction l generalizing c with
  | nil => exact ⟨c, rfl, le_refl _⟩
  | cons a as ih =>
      rw [List.foldl_cons]
      simp only [latestStep]
      split_ifs with hlt
      · rcases ih a with ⟨m, hm, hle⟩
        exact ⟨m, hm, le_trans (le_of_lt hlt) hle⟩
      · exact ih c

/-- The scan result dominates every scanned row. -/
theorem latest_foldl_ub (l : List ModelArtifact) (acc : Option ModelArtifact)
    (a : ModelArtifact) (ha : a ∈ l) :
    ∃ m, l.foldl latestStep acc = some m ∧ a.created_at ≤ m.created_at := by
  induction l generalizing acc with
  | nil => cases ha
  | cons b bs ih =>
      rw [List.foldl_cons]
      rcases List.mem_cons.mp ha with hab | hmem
      · subst hab
        rcases latestStep_some acc a with ⟨c, hc, hle⟩
        rw [hc]
        rcases latest_foldl_mono bs c with ⟨m, hm, hle'⟩
        exact ⟨m, hm, le_trans hle hle'⟩
      · exact ih (latestStep acc b) hmem

/-- The scan result, when it exists, is one of the scanned rows or the
initial accumulator. -/
theorem latest_foldl_mem (l : List ModelArtifact) (acc : Option ModelArtifact)
    (m : ModelArtifact) (hm : l.foldl latestStep acc = some m) :
    acc = some m ∨ m ∈ l := by
  induction l generalizing acc with
  | nil => exact Or.inl hm
  | cons b bs ih =>
      rw [List.foldl_cons] at hm
      rcases ih (latestStep acc b) hm with hstep | hmem
      · cases acc with
        | none =>
            simp only [latestStep] at hstep
            exact Or.inr
              (List.mem_cons.mpr (Or.inl (Option.some_injective _ hstep).symm))
        | some c =>
            simp only [latestStep] at hstep
            split_ifs at hstep
            · exact Or.inr
                (List.mem_cons.mpr (Or.inl (Option.some_injective _ hstep).symm))
            · exact Or.inl hstep
      · exact Or.inr (List.mem_cons_of_mem b hmem)

/-- C10: When more than one stored artifact is active, the `/predict` lookup
still consults exactly one of them, deterministically: it returns an active
stored row whose `created_at` is maximal among all active rows. -/
theorem getActiveModel_latest_active (db : List ModelArtifact)
    (a₁ a₂ : ModelArtifact) (h₁ : a₁ ∈ db) (h₂ : a₂ ∈ db) (hne : a₁ ≠ a₂)
    (hact₁ : a₁.active = true) (hact₂ : a₂.active = true) :
    ∃ m, getActiveModel db = some m ∧ m ∈ db ∧ m.active = true ∧
      ∀ a ∈ db, a.active = true → a.created_at ≤ m.created_at := by
  have hmem₁ : a₁ ∈ db.filter fun a => a.active :=
    List.mem_filter.mpr ⟨h₁, by simpa using hact₁⟩
  rcases latest_foldl_ub (db.filter fun a => a.active) none a₁ hmem₁ with
    ⟨m, hm, _⟩
  have hmmem : m ∈ db.filter fun a => a.active := by
    rcases latest_foldl_mem (db.filter fun a => a.active) none m hm with h | h
    · cases h
    · exact h
  refine ⟨m, hm, (List.mem_filter.mp hmmem).1,
    by have := (List.mem_filter.mp hmmem).2; simpa using this,
    fun a ha haact => ?_⟩
  have hamem : a ∈ db.filter fun b => b.active :=
    List.mem_filter.mpr ⟨ha, by simpa using haact⟩
  rcases latest_foldl_ub (db.filter fun b => b.active) none a hamem with
    ⟨m', hm', hle'⟩
  rw [hm] at hm'
  exact (Option.some_injective _ hm') ▸ hle'

/-- Witness for C10: with two active artifacts the lookup returns the one
with the later `created_at`. -/
theorem getActiveModel_latest_active_witness :
    ∃ m, getActiveModel [⟨1, "RandomForest", 5, ⊥, [], 0, true⟩,
        ⟨2, "XGBoost", 9, ⊥, [], 1, true⟩] = some m ∧
      m ∈ [⟨1, "RandomForest", 5, ⊥, [], 0, true⟩,
        ⟨2, "XGBoost", 9, ⊥, [], 1, true⟩] ∧ m.active = true ∧
      ∀ a ∈ [(⟨1, "RandomForest", 5, ⊥, [], 0, true⟩ : ModelArtifact),
        ⟨2, "XGBoost", 9, ⊥, [], 1, true⟩], a.active = true →
          a.created_at ≤ m.created_at :=
  getActiveModel_latest_active _ ⟨1, "RandomForest", 5, ⊥, [], 0, true⟩
    ⟨2, "XGBoost", 9, ⊥, [], 1, true⟩ (List.mem_cons_self _ _)
    (List.mem_cons_of_mem _ (List.mem_cons_self _ _)) (by decide) rfl rfl

end SekouAI

namespace SekouAI

/-- The `TrainRecord` schema of `backend/schemas.py`: a TransactionInput
shape plus a required `label`. `model_dump` emits its keys in declaration
order: amount, category, features, label. -/
structure TrainRecord where
  amount : ℚ
  category : String
  features : Option (List (String × Val)) := none
  label : RiskLevel
  deriving DecidableEq

/-- Python dict / pandas first-match key lookup on an association list. -/
def dLookup : List (String × Val) → String → Option Val
  | [], _ => none
  | kv :: rest, k => if kv.1 == k then some kv.2 else dLookup rest k

/-- Python dict assignment `d[k] = v`: replace the value at an existing key
in place, otherwise append the new key at the end (insertion order kept). -/
def dictInsert : List (String × Val) → String → Val → List (String × Val)
  | [], k, v => [(k, v)]
  | kv :: rest, k, v =>
      if kv.1 == k then (k, v) :: rest else kv :: dictInsert rest k v

/-- The Python merge `{**a, **b}` in `predict` of `backend/main.py`:
every key of `b` is assigned over `a`, so `b`'s values win on collisions. -/
def dictMerge (a b : List (String × Val)) : List (String × Val) :=
  b.foldl (fun acc kv => dictInsert acc kv.1 kv.2) a

/-- The single-row assembly of `predict` in `backend/main.py`:
`data = payload.model_dump()`, `features = data.pop("features", None) or {}`,
`row = {**data, **features}`. -/
def predictRow (payload : PredictionInput) : List (String × Val) :=
  dictMerge
    [("amount", Val.vNum payload.amount), ("category", Val.vStr payload.category)]
    (payload.features.getD [])

/-- The first-seen union of feature keys across the records, the column set
`pd.json_normalize` produces for the popped `features` series. -/
def featureKeys (featDicts : List (List (String × Val))) : List String :=
  featDicts.foldl
    (fun acc d =>
      d.foldl (fun ks kv => if ks.contains kv.1 then ks else ks ++ [kv.1]) acc)
    []

/-- `_records_to_dataframe` of `backend/model_utils.py`:
`pd.DataFrame(records)` (columns amount, category, features, label), then
`y = df.pop("label")`, then the `features` column is popped, `fillna({})`
applied, `json_normalize`d, and `pd.concat([df, feat_df], axis=1)` appends
the flattened columns after the base columns — pandas keeps duplicate
column names on concat, it does not overwrite.
Raising paths, embedded as `none`: with an empty record list
`pd.DataFrame([])` has no columns and `df.pop("label")` raises `KeyError`;
and `Series.fillna({})` with a dict argument fills nothing, so a record
whose `features` is `None` reaches `pd.json_normalize` as `None` and raises
`AttributeError`. -/
def _records_to_dataframe (records : List TrainRecord) :
    Option (List (String × List Val) × List RiskLevel) :=
  if records.isEmpty then none
  else if records.any fun r => r.features.isNone then none
  else
    let y := records.map fun r => r.label
    let featDicts := records.map fun r => r.features.getD []
    let base : List (String × List Val) :=
      [("amount", records.map fun r => Val.vNum r.amount),
       ("category", records.map fun r => Val.vStr r.category)]
    let featCols : List (String × List Val) :=
      (featureKeys featDicts).map fun k =>
        (k, featDicts.map fun d => (dLookup d k).getD Val.vNone)
    some (base ++ featCols, y)

/-- Looking up the just-assigned key yields the assigned value. -/
theorem dictInsert_lookup_self (d : List (String × Val)) (k : String) (v : Val) :
    dLookup (dictInsert d k v) k = some v := by
  induction d with
  | nil => simp [dictInsert, dLookup]
  | cons kv rest ih =>
      by_cases h : (kv.1 == k) = true
      · simp [dictInsert, h, dLookup]
      · simp only [dictInsert, h, Bool.false_eq_true, if_false, dLookup]
        exact ih

/-- Assigning a different key leaves a lookup unchanged. -/
theorem dictInsert_lookup_other (d : List (String × Val)) (k' k : String)
    (v : Val) (h : (k' == k) = false) :
    dLookup (dictInsert d k' v) k = dLookup d k := by
  induction d with
  | nil => simp [dictInsert, dLookup, h]
  | cons kv rest ih =>
      by_cases hk : (kv.1 == k') = true
      · have hkv : kv.1 = k' := beq_iff_eq.mp hk
        have h2 : (kv.1 == k) = false := by rw [hkv]; exact h
        simp only [dictInsert, hk, if_true]
        simp only [dLookup, h, h2, Bool.false_eq_true, if_false]
      · simp only [dictInsert, hk, Bool.false_eq_true, if_false, dLookup, ih]

/-- Merging a dict that does not mention a key leaves that key's lookup
unchanged. -/
theorem dictMerge_lookup_absent (b : List (String × Val))
    (a : List (String × Val)) (k : String)
    (h : ∀ kv ∈ b, (kv.1 == k) = false) :
    dLookup (dictMerge a b) k = dLookup a k := by
  induction b generalizing a with
  | nil => rfl
  | cons kv rest ih =>
      have hstep : dictMerge a (kv :: rest) =
          dictMerge (dictInsert a kv.1 kv.2) rest := rfl
      rw [hstep,
        ih (dictInsert a kv.1 kv.2) (fun q hq => h q (List.mem_cons_of_mem kv hq)),
        dictInsert_lookup_other a kv.1 k kv.2 (h kv (List.mem_cons_self kv rest))]

/-- In a merge `{**a, **b}` with duplicate-free keys in `b`, every key of
`b` resolves to `b`'s value: the merged-in dict overwrites `a`. -/
theorem dictMerge_lookup_mem (b : List (String × Val))
    (a : List (String × Val)) (k : String) (v : Val)
    (hnd : (b.map Prod.fst).Nodup) (hmem : (k, v) ∈ b) :
    dLookup (dictMerge a b) k = some v := by
  induction b generalizing a with
  | nil => cases hmem
  | cons kv rest ih =>
      have hstep : dictMerge a (kv :: rest) =
          dictMerge (dictInsert a kv.1 kv.2) rest := rfl
      have hnd' : (kv.1 ∉ rest.map Prod.fst) ∧ (rest.map Prod.fst).Nodup :=
        List.nodup_cons.mp (by simpa using hnd)
      rcases List.mem_cons.mp hmem with heq | hmem'
      · have hk1 : kv.1 = k := by rw [← heq]
        have hv2 : kv.2 = v := by rw [← heq]
        have habs : ∀ q ∈ rest, (q.1 == k) = false := by
          intro q hq
          refine beq_eq_false_iff_ne.mpr fun hqk => hnd'.1 ?_
          rw [hk1, ← hqk]
          exact List.mem_map.mpr ⟨q, hq, rfl⟩
        rw [hstep, dictMerge_lookup_absent rest _ k habs, hk1, hv2,
          dictInsert_lookup_self]
      · rw [hstep]
        exact ih (dictInsert a kv.1 kv.2) hnd'.2 hmem'

/-- The key list after a dict assignment: unchanged when the key exists,
otherwise the key is appended. -/
theorem dictInsert_keys (d : List (String × Val)) (k : String) (v : Val) :
    (dictInsert d k v).map Prod.fst =
      if k ∈ d.map Prod.fst then d.map Prod.fst else d.map Prod.fst ++ [k] := by
  induction d with
  | nil => simp [dictInsert]
  | cons kv rest ih =>
      by_cases h : (kv.1 == k) = true
      · have hkv : kv.1 = k := beq_iff_eq.mp h
        simp [dictInsert, h, hkv]
      · have hne : k ≠ kv.1 := fun hk =>
          absurd (beq_iff_eq.mpr hk.symm) (by simpa using h)
        simp only [dictInsert, h, Bool.false_eq_true, if_false, List.map_cons, ih]
        by_cases hmem : k ∈ rest.map Prod.fst
        · rw [if_pos hmem, if_pos (List.mem_cons.mpr (Or.inr hmem))]
        · rw [if_neg hmem,
            if_neg (fun hc => (List.mem_cons.mp hc).elim hne hmem)]
          rfl

/-- Dict assignment preserves duplicate-free keys. -/
theorem dictInsert_keys_nodup (d : List (String × Val)) (k : String) (v : Val)
    (h : (d.map Prod.fst).Nodup) : ((dictInsert d k v).map Prod.fst).Nodup := by
  rw [dictInsert_keys]
  split_ifs with hc
  · exact h
  · exact List.nodup_append.mpr ⟨h, List.nodup_singleton k,
      fun x hx hk => hc (by rwa [List.mem_singleton.mp hk] at hx)⟩

/-- Dict merge preserves duplicate-free keys: a merged row has a single
entry per name. -/
theorem dictMerge_keys_nodup (b : List (String × Val))
    (a : List (String × Val)) (h : (a.map Prod.fst).Nodup) :
    ((dictMerge a b).map Prod.fst).Nodup := by
  induction b generalizing a with
  | nil => exact h
  | cons kv rest ih => exact ih _ (dictInsert_keys_nodup a kv.1 kv.2 h)

/-- The column names of a successfully assembled training table: the base
columns amount and category first, then every flattened feature key,
duplicates kept. -/
theorem records_to_dataframe_columns (records : List TrainRecord)
    (t : List (String × List Val) × List RiskLevel)
    (ht : _records_to_dataframe records = some t) :
    t.1.map Prod.fst =
      ["amount", "category"] ++
        featureKeys (records.map fun r => r.features.getD []) := by
  unfold _records_to_dataframe at ht
  split_ifs at ht
  injection ht with ht
  rw [← ht]
  dsimp only
  simp only [List.map_append, List.map_map, List.map_cons, List.map_nil]
  simp [Function.comp_def]

/-- C7 counterexample: assembling a training table from one record whose
`features` dict reuses the top-level name "category" succeeds but does NOT
resolve the collision by overwriting — `pd.concat` keeps both columns, so
the table has two columns named "category", the top-level value intact in
the first and the flattened value in the second, refuting the claimed
single column per name on the training path. -/
theorem records_to_dataframe_collision_counterexample :
    _records_to_dataframe
        [⟨5, "a", some [("category", Val.vStr "b")], .low⟩] =
      some ([("amount", [Val.vNum 5]), ("category", [Val.vStr "a"]),
        ("category", [Val.vStr "b"])], [.low]) ∧
    ¬ ((((_records_to_dataframe
        [⟨5, "a", some [("category", Val.vStr "b")], .low⟩]).getD
          ([], [])).1.map Prod.fst).Nodup) :=
  ⟨rfl, by decide⟩

/-- C7 amended: at inference time the single-row assembly of `/predict`
resolves a collision by the flattened features key overwriting the
top-level one, and the row has a single entry per name; whenever the
training-table assembly succeeds (it raises on an empty record list or a
record with null features), a feature key colliding with a base column
instead yields two columns of that name (top-level column kept first,
flattened column appended after). -/
theorem collision_policy_split (p : PredictionInput)
    (feats : List (String × Val)) (k : String) (v : Val)
    (records : List TrainRecord) (k' : String)
    (t : List (String × List Val) × List RiskLevel)
    (hp : p.features = some feats) (hnd : (feats.map Prod.fst).Nodup)
    (hmem : (k, v) ∈ feats)
    (ht : _records_to_dataframe records = some t)
    (hk' : k' ∈ featureKeys (records.map fun r => r.features.getD []))
    (hbase : k' = "amount" ∨ k' = "category") :
    dLookup (predictRow p) k = some v ∧
    ((predictRow p).map Prod.fst).Nodup ∧
    2 ≤ (t.1.map Prod.fst).count k' := by
  refine ⟨?_, ?_, ?_⟩
  · unfold predictRow
    rw [hp]
    exact dictMerge_lookup_mem feats _ k v hnd hmem
  · refine dictMerge_keys_nodup _ _ ?_
    simp
  · rw [records_to_dataframe_columns records t ht, List.count_append]
    have h1 : 1 ≤ List.count k' ["amount", "category"] := by
      rcases hbase with h | h <;> rw [h] <;> decide
    have h2 : 1 ≤ List.count k'
        (featureKeys (records.map fun r => r.features.getD [])) :=
      List.one_le_count_iff.mpr hk'
    omega

/-- Witness for the amended C7 at a concrete payload and a concrete
one-record training set, both colliding on "category". -/
theorem collision_policy_split_witness :
    dLookup (predictRow ⟨5, "a", some [("category", Val.vStr "b")]⟩)
        "category" = some (Val.vStr "b") ∧
    ((predictRow ⟨5, "a", some [("category", Val.vStr "b")]⟩).map
        Prod.fst).Nodup ∧
    2 ≤ (([("amount", [Val.vNum 5]), ("category", [Val.vStr "a"]),
        ("category", [Val.vStr "b"])].map
          (Prod.fst (β := List Val))).count "category") :=
  collision_policy_split ⟨5, "a", some [("category", Val.vStr "b")]⟩
    [("category", Val.vStr "b")] "category" (Val.vStr "b")
    [⟨5, "a", some [("category", Val.vStr "b")], .low⟩] "category"
    ([("amount", [Val.vNum 5]), ("category", [Val.vStr "a"]),
      ("category", [Val.vStr "b"])], [.low])
    rfl (by decide) (by decide) rfl (by decide) (Or.inr rfl)

end SekouAI

namespace SekouAI

/-- Modelled from the spec: a fitted pipeline of the Artifact Codec,
abstracted by its prediction behaviour on a single-row table (the spec's
"reconstruct the full pipeline ... without external schema"); the actual
pipeline object lives in scikit-learn, outside this repository. -/
structure FittedPipeline where
  predictOnRow : List (String × Val) → String

/-- Modelled from the spec: the opaque byte blob of the Artifact Codec —
`joblib.dump` / `joblib.load` are calls into the external joblib library,
only their call sites (`train_select_serialize`, `load_model_from_bytes`)
are in `backend/model_utils.py`. Per the spec the format is a
self-describing lossless encoding of the fitted pipeline; other byte
strings are corrupt and fail to load. -/
inductive ArtifactBlob where
  | wellFormed (p : FittedPipeline)
  | corrupt (junk : ℕ)

/-- Modelled from the spec: `serialize(fittedPipeline) -> bytes`, the
`joblib.dump`-into-buffer tail of `train_select_serialize`. -/
def serializePipeline (p : FittedPipeline) : ArtifactBlob := .wellFormed p

/-- Modelled from the spec: `deserialize(bytes) -> predictor`, the
`joblib.load` wrapper `load_model_from_bytes` of `backend/model_utils.py`;
corrupt bytes raise, embedded as `none`. -/
def load_model_from_bytes : ArtifactBlob → Option FittedPipeline
  | .wellFormed p => some p
  | .corrupt _ => none

/-- C8: The Artifact Codec round-trips: deserializing the bytes produced by
serializing a fitted pipeline succeeds and yields a predictor whose
prediction on every input row is identical to the original pipeline's. -/
theorem codec_round_trip (p : FittedPipeline) (row : List (String × Val)) :
    ∃ q, load_model_from_bytes (serializePipeline p) = some q ∧
      q.predictOnRow row = p.predictOnRow row :=
  ⟨p, rfl, rfl⟩

end SekouAI
